import Mathlib

/-!
Verification of the regolith milestone-updater helper
(`regolith/helpers/u_milestonehelper.py`) and the CV builder
(`regolith/builders/cvbuilder.py`).

Python dictionaries with optional keys are modelled as structures with
`Option` fields; Python truthiness of an option value (`if rc.type:`)
conflates `None` with the empty/falsy value, so `none` stands for
"absent or falsy" throughout.  Dates are modelled as already-resolved
`Nat` values (e.g. `20240301` for 2024-03-01): the date-resolution
collaborator `regolith.dates.get_due_date` is not part of the sources
and is modelled from the spec as reading the resolved value.  Strings
that the code splits and parses character by character (the `--index`
argument) are modelled as `List Char`.
-/

/-- A milestone-like record (deliverable, kickoff or milestone entry of a
projectum).  Each field models the dict key of the same name; `mtype`
models the key `type`.  `identifier` models the origin tag the helper
writes into each record before merging. -/
structure MRec where
  name : Option String := none
  objective : Option String := none
  due_date : Nat := 0
  status : Option String := none
  mtype : Option String := none
  audience : Option (List String) := none
  notes : Option (List String) := none
  end_date : Option Nat := none
  identifier : Option String := none
  deriving DecidableEq, Repr

/-- A projectum record: exactly one deliverable, one kickoff and a list of
milestones, as guaranteed by the data model. -/
structure Projectum where
  deliverable : MRec
  kickoff : MRec
  milestones : List MRec
  deriving DecidableEq, Repr

/-- The backing collection of projecta, keyed by `_id`. -/
def Store := List (String × Projectum)

instance : DecidableEq Store := fun a b => List.hasDecEq a b

/-- The run-configuration record `rc` threaded through the helper.  Every
optional CLI argument is an `Option`; `none` means absent or falsy. -/
structure Rc where
  projectum_id : String
  current : Bool := false
  index : Option (List Char) := none
  verbose : Bool := false
  due_date : Option Nat := none
  name : Option String := none
  objective : Option String := none
  status : Option String := none
  mtype : Option String := none
  audience : Option (List String) := none
  notes : Option (List String) := none
  finish : Bool := false
  date : Option Nat := none
  deriving Repr

/-- The errors `db_updater` can raise.  The validation errors carry the
allowed set their message interpolates; `nameError`, `typeError` and
`keyError` model the corresponding Python runtime exceptions, and
`valueError` an `int()` conversion failure. -/
inductive Err where
  | unknownId
  | invalidType (allowed : List (String × String))
  | invalidStatus (allowed : List (String × String))
  | valueError
  | missingNewFields
  | missingType (allowed : List (String × String))
  | indexError
  | keyError
  | nameError
  | typeError
  deriving DecidableEq, Repr

/-- A value stored under a key of the partial update document `pdoc`:
either a single record (deliverable/kickoff slot) or a list of records
(the milestones list). -/
inductive PdocVal where
  | docVal (d : MRec)
  | listVal (l : List MRec)
  deriving DecidableEq, Repr

/-- `ALLOWED_TYPES` from the source, as an association list. -/
def ALLOWED_TYPES : List (String × String) :=
  [("m", "meeting"), ("r", "release"), ("p", "pull request"), ("o", "other")]

/-- `ALLOWED_STATI` from the source, as an association list. -/
def ALLOWED_STATI : List (String × String) :=
  [("p", "proposed"), ("s", "started"), ("f", "finished"),
   ("b", "backburner"), ("c", "converged"), ("l", "cancelled")]

/-- `list(chain.from_iterable((k, v) for k, v in d.items()))`: the keys and
values of an association list, interleaved. -/
def flatPairs (l : List (String × String)) : List String :=
  l.foldr (fun kv acc => kv.1 :: kv.2 :: acc) []

/-- Modelled from the spec: `regolith.dates.get_due_date` (the
date-resolution collaborator, absent from the sources) resolves a
record's due date; records here carry the already-resolved date, so
resolution reads it back. -/
def get_due_date (m : MRec) : Nat :=
  m.due_date

/-- The sort relation used for the merged view: compare resolved due
dates (the `key=lambda x: x['due_date']` of the source's stable sort). -/
def dueLe (a b : MRec) : Prop :=
  a.due_date ≤ b.due_date

instance : DecidableRel dueLe := fun a b => Nat.decLe a.due_date b.due_date

instance : IsTotal MRec dueLe := ⟨fun a b => Nat.le_total a.due_date b.due_date⟩

instance : IsTrans MRec dueLe := ⟨fun _ _ _ h h' => Nat.le_trans h h'⟩

/-- Tag a record with its origin and resolve its due date in place
(source lines 135-142). -/
def tagResolve (tag : String) (m : MRec) : MRec :=
  let t := { m with identifier := some tag }
  { t with due_date := get_due_date t }

/-- The tagged, due-date-resolved milestones list (the in-memory
`milestones` list object after the pre-merge mutations). -/
def taggedMilestones (p : Projectum) : List MRec :=
  p.milestones.map (tagResolve "milestones")

/-- The merge input `[deliverable, kickoff, *milestones]` after tagging
and due-date resolution (source lines 139-142). -/
def preMerge (p : Projectum) : List MRec :=
  tagResolve "deliverable" p.deliverable :: tagResolve "kickoff" p.kickoff ::
    taggedMilestones p

/-- The merged view: `all_milestones` after the stable ascending sort by
resolved due date (source line 143; Python `list.sort` is stable). -/
def mergedView (p : Projectum) : List MRec :=
  List.insertionSort dueLe (preMerge p)

/-- Whether `frag` occurs at the head of `l`. -/
def fragAt : List Char → List Char → Bool
  | [], _ => true
  | _ :: _, [] => false
  | a :: as, b :: bs => a = b && fragAt as bs

/-- Whether `frag` occurs contiguously anywhere in `l`. -/
def containsFrag (frag : List Char) (l : List Char) : Bool :=
  match l with
  | [] => fragAt frag []
  | _ :: rest => fragAt frag l || containsFrag frag rest

/-- Modelled from the spec: `regolith.tools.fragment_retrieval` (absent
from the sources) performs a fragment lookup over all identifiers,
returning the records whose `_id` contains the requested fragment. -/
def fragment_retrieval (store : Store) (fragment : String) : List (String × Projectum) :=
  store.filter (fun kv => containsFrag fragment.data kv.1.data)

/-- Modelled from the spec: the database client's `update_one` applies a
partial document to the record matching the filter, replacing only the
named top-level field. -/
def applyPdoc (prum : Projectum) : String × PdocVal → Projectum
  | ("milestones", .listVal l) => { prum with milestones := l }
  | ("deliverable", .docVal d) => { prum with deliverable := d }
  | ("kickoff", .docVal d) => { prum with kickoff := d }
  | _ => prum

/-- Modelled from the spec: `rc.client.update_one(db, coll, filterid, pdoc)`
updates the stored record with key `key` by the partial document. -/
def update_one (store : Store) (key : String) (pdoc : String × PdocVal) : Store :=
  store.map (fun kv => if kv.1 = key then (kv.1, applyPdoc kv.2 pdoc) else kv)

/-- Python `s.split(sep)` on a character list: `n` separators yield `n + 1`
pieces. -/
def splitOnChar (sep : Char) : List Char → List (List Char)
  | [] => [[]]
  | c :: rest =>
    match splitOnChar sep rest with
    | [] => [[c]]
    | h :: t => if c = sep then [] :: h :: t else (c :: h) :: t

/-- Strip the optional leading `+` sign accepted by Python `int`. -/
def stripPlus : List Char → List Char
  | '+' :: rest => rest
  | s => s

/-- The numeric value of a digit string. -/
def digitsVal (t : List Char) : Nat :=
  t.foldl (fun acc c => acc * 10 + (c.toNat - '0'.toNat)) 0

/-- Python `int(s)` on a character list: an optional leading `+` followed
by at least one digit; anything else raises `ValueError`.  (A `-` sign
never reaches this point: any dash in the index argument selects the
range branch and is consumed by the split.) -/
def pyInt (s : List Char) : Except Err Nat :=
  if stripPlus s ≠ [] ∧ (stripPlus s).all (fun c => c.isDigit) then
    .ok (digitsVal (stripPlus s))
  else
    .error .valueError

/-- `int` applied to each piece of a comma split, first failure wins. -/
def pyIntList : List (List Char) → Except Err (List Nat)
  | [] => .ok []
  | s :: rest =>
    match pyInt s with
    | .error e => .error e
    | .ok n =>
      match pyIntList rest with
      | .error e => .error e
      | .ok ns => .ok (n :: ns)

/-- Parsing of the (space-stripped) `--index` argument, source lines
181-187: a dash selects the inclusive-range branch using the first two
dash-separated components, else a comma selects the list branch, else a
single integer. -/
def parseIndexArg (s : List Char) : Except Err (List Nat) :=
  if '-' ∈ s then
    match pyInt ((splitOnChar '-' s).getD 0 []) with
    | .error e => .error e
    | .ok a =>
      match pyInt ((splitOnChar '-' s).getD 1 []) with
      | .error e => .error e
      | .ok b => .ok (List.range' a (b + 1 - a))
  else if ',' ∈ s then
    pyIntList (splitOnChar ',' s)
  else
    match pyInt s with
    | .error e => .error e
    | .ok n => .ok [n]

/-- The new-milestone record built in the `idx == 1` branch (source lines
191-217), given the required due date, name and objective already checked
present.  Note the source's swapped default branches: when `--type` is
absent it sets the *status* default, and when `--status` is absent it
sets the *type* default. -/
def buildNewMilestone (rc : Rc) (due : Nat) (nm ob : String) : MRec :=
  let mil : MRec := { due_date := get_due_date { due_date := due } }
  let mil := { mil with objective := some ob, name := some nm }
  let mil := { mil with audience := some (rc.audience.getD ["lead", "pi", "group_members"]) }
  let mil :=
    match rc.mtype with
    | some t => { mil with mtype := some ((ALLOWED_TYPES.lookup t).getD t) }
    | none => { mil with status := some "proposed" }
  let mil :=
    match rc.status with
    | some s => { mil with status := some ((ALLOWED_STATI.lookup s).getD s) }
    | none => { mil with mtype := some "meeting" }
  match rc.notes with
  | some ns => { mil with notes := some ns }
  | none => mil

/-- `doc.update({'type': ...})` when `--type` was given (source 229-233). -/
def updType (rc : Rc) (doc : MRec) : MRec :=
  match rc.mtype with
  | some t => { doc with mtype := some ((ALLOWED_TYPES.lookup t).getD t) }
  | none => doc

/-- `doc.update({'status': ...})` for a truthy (possibly finish-mutated)
`rc.status` (source 244-248). -/
def updStatus (s : Option String) (doc : MRec) : MRec :=
  match s with
  | some v => { doc with status := some ((ALLOWED_STATI.lookup v).getD v) }
  | none => doc

/-- `doc.update({'audience': rc.audience})` when given (source 249-250). -/
def updAudience (rc : Rc) (doc : MRec) : MRec :=
  match rc.audience with
  | some a => { doc with audience := some a }
  | none => doc

/-- The due-date overwrite plus unconditional re-resolution (source
251-253). -/
def updDue (rc : Rc) (doc : MRec) : MRec :=
  let d :=
    match rc.due_date with
    | some v => { doc with due_date := v }
    | none => doc
  { d with due_date := get_due_date d }

/-- The notes append: existing notes (defaulting to `[]`) extended by the
supplied notes (source 254-257). -/
def updNotes (rc : Rc) (doc : MRec) : MRec :=
  match rc.notes with
  | some ns => { doc with notes := some (doc.notes.getD [] ++ ns) }
  | none => doc

/-- The milestone-origin-only name and objective overwrites (source
258-262). -/
def updNameObj (rc : Rc) (identifier : String) (doc : MRec) : MRec :=
  if identifier = "milestones" then
    let d :=
      match rc.name with
      | some n => { doc with name := some n }
      | none => doc
    match rc.objective with
    | some o => { d with objective := some o }
    | none => d
  else
    doc

/-- The field edits applied to an existing entry, source lines 223-262,
returning the edited record and the (possibly finish-mutated) `rc.status`.
Errors: the mandatory-type check for milestone-origin entries, and the
`doc['name']` `KeyError` in the finish branch.  In-place mutations that
precede a raised error are unobservable (the call aborts), so checks are
modelled before the corresponding updates. -/
def editEntry (rc : Rc) (now : Nat) (rcStatus0 : Option String) (doc0 : MRec)
    (identifier : String) : Except Err (MRec × Option String) :=
  if doc0.mtype = none ∧ rc.mtype = none ∧ identifier = "milestones" then
    .error (.missingType ALLOWED_TYPES)
  else if rc.finish ∧ identifier ≠ "deliverable" ∧ (updType rc doc0).name = none then
    .error .keyError
  else
    .ok (updNameObj rc identifier
          (updNotes rc (updDue rc (updAudience rc (updStatus
            (if rc.finish then some "f" else rcStatus0)
            (if rc.finish then { updType rc doc0 with end_date := some now }
             else updType rc doc0))))),
        if rc.finish then some "f" else rcStatus0)

/-- The `new_mil` comprehension (source 263-266): walk
`zip(index_list, all_milestones)`, reading each record's `identifier`
key (`KeyError` when absent), keeping milestone-origin entries other
than position `idx`. -/
def buildNewMil (idx : Nat) : List (Nat × MRec) → Except Err (List MRec)
  | [] => .ok []
  | (i, j) :: rest =>
    match j.identifier with
    | none => .error .keyError
    | some idf =>
      match buildNewMil idx rest with
      | .error e => .error e
      | .ok tail => if idf = "milestones" ∧ i ≠ idx then .ok (j :: tail) else .ok tail

/-- The state threaded through the edit loop: the merged view (whose
records the loop mutates in place), the in-memory `milestones` list
object, the mutable `rc.status`, the loop-carried Python local
`identifier` (unbound before the first `idx > 1` iteration), the store
and the `update_one` calls issued so far. -/
structure LoopState where
  allMilestones : List MRec
  milList : List MRec
  rcStatus : Option String
  identVar : Option String
  store : Store
  calls : List (String × PdocVal)

/-- One iteration of `for idx in idx_parsed` (source 188-272).  Every
branch ends at source line 271, `pdoc[identifier].pop('identifier', None)`:
with `identifier` unbound this raises `NameError`; with `pdoc` lacking the
key, `KeyError`; with `pdoc[identifier]` a list (the `milestones` key),
`TypeError` (`list.pop` takes an integer index); only a deliverable- or
kickoff-origin edit reaches `update_one`.  In the `idx == 1` branch the
new record (`buildNewMilestone`) and its append to the in-memory
milestones list precede the raise in the source but are discarded with
the aborting call, so the model elides the dead binding. -/
def stepIdx (rc : Rc) (now : Nat) (indexList : List Nat) (st : LoopState)
    (idx : Nat) : Except Err LoopState :=
  if idx = 1 then
    match rc.due_date, rc.name, rc.objective with
    | some _due, some _nm, some _ob =>
      match st.identVar with
      | none => .error .nameError
      | some idv => if idv = "milestones" then .error .typeError else .error .keyError
    | _, _, _ => .error .missingNewFields
  else if 1 < idx then
    match st.allMilestones[idx - 2]? with
    | none => .error .indexError
    | some doc0 =>
      match doc0.identifier with
      | none => .error .keyError
      | some identifier =>
        match editEntry rc now st.rcStatus doc0 identifier with
        | .error e => .error e
        | .ok (doc', rcStatus1) =>
          if identifier = "milestones" then
            match buildNewMil idx (indexList.zip (st.allMilestones.set (idx - 2) doc')) with
            | .error e => .error e
            | .ok _newMil => .error .typeError
          else
            .ok { allMilestones :=
                    st.allMilestones.set (idx - 2) { doc' with identifier := none },
                  milList := st.milList,
                  rcStatus := rcStatus1, identVar := some identifier,
                  store := update_one st.store rc.projectum_id
                    (identifier, PdocVal.docVal { doc' with identifier := none }),
                  calls := st.calls ++
                    [(identifier, PdocVal.docVal { doc' with identifier := none })] }
  else
    match st.identVar with
    | none => .error .nameError
    | some _ => .error .keyError

/-- Run the edit loop; a raised error aborts the remaining iterations but
keeps the store updates already applied. -/
def runLoop (rc : Rc) (now : Nat) (indexList : List Nat) :
    List Nat → LoopState → LoopState × Option Err
  | [], st => (st, none)
  | idx :: rest, st =>
    match stepIdx rc now indexList st idx with
    | .error e => (st, some e)
    | .ok st' => runLoop rc now indexList rest st'

/-- The `--type` validation (source 172-175). -/
def checkType (rc : Rc) : Option Err :=
  match rc.mtype with
  | some t => if t ∈ flatPairs ALLOWED_TYPES then none else some (.invalidType ALLOWED_TYPES)
  | none => none

/-- The `--status` validation (source 176-179). -/
def checkStatus (rc : Rc) : Option Err :=
  match rc.status with
  | some s => if s ∈ flatPairs ALLOWED_STATI then none else some (.invalidStatus ALLOWED_STATI)
  | none => none

/-- The observable outcome of a `db_updater` call: the final store, the
`update_one` calls issued (in order) and the raised error, if any. -/
structure DbResult where
  store : Store
  calls : List (String × PdocVal)
  err : Option Err
  deriving DecidableEq

/-- The path taken once `find_one` has returned the projectum (source
132-272): merge and sort, the read-only listing when no index was given,
type/status validation, index parsing, then the edit loop. -/
def foundPath (rc : Rc) (today : Nat) (store : Store) (prum : Projectum) : DbResult :=
  let now := rc.date.getD today
  let v := mergedView prum
  let indexList := List.range' 2 v.length
  match rc.index with
  | none => ⟨store, [], none⟩
  | some idxStr =>
    match checkType rc with
    | some e => ⟨store, [], some e⟩
    | none =>
      match checkStatus rc with
      | some e => ⟨store, [], some e⟩
      | none =>
        match parseIndexArg (idxStr.filter (fun c => !(c = ' '))) with
        | .error e => ⟨store, [], some e⟩
        | .ok idxs =>
          let st0 : LoopState :=
            ⟨v, taggedMilestones prum, rc.status, none, store, []⟩
          let r := runLoop rc now indexList idxs st0
          ⟨r.1.store, r.1.calls, r.2⟩

/-- `MilestoneUpdaterHelper.db_updater` (source 112-277): look up the
projectum; on a miss fall back to the fragment lookup (an error only when
that finds nothing); otherwise proceed to listing or editing. -/
def db_updater (rc : Rc) (today : Nat) (store : Store) : DbResult :=
  match List.lookup rc.projectum_id store with
  | none =>
    if (fragment_retrieval store rc.projectum_id).length = 0 then
      ⟨store, [], some .unknownId⟩
    else
      ⟨store, [], none⟩
  | some prum => foundPath rc today store prum

/-- An advisee entry as produced by the advisee-employment filter in
`cvbuilder.py`.  Python compares these records by structural equality;
`aid` stands for the identifying content and `active` for the activity
flag (`g.get("active")` truthiness). -/
structure Advisee where
  aid : String
  active : Bool
  deriving DecidableEq, Repr

/-- `begin_period = date(1650, 1, 1)` (source `cvbuilder.py` line 50),
encoded as `yyyymmdd`. -/
def begin_period : Nat := 16500101

/-- Python `list.remove(x)`: drop the first element equal to `x`, raising
`ValueError` when there is none. -/
def pyRemove {α : Type} [DecidableEq α] (l : List α) (x : α) : Except Err (List α) :=
  if x ∈ l then .ok (l.erase x) else .error .valueError

/-- The removal loop of `cvbuilder.latex` (source 111-118): iterate over a
deep copy of the list (structurally equal to the list itself) and remove
from the live list every entry satisfying `p`. -/
def removeLoopGo {α : Type} [DecidableEq α] (p : α → Bool) :
    List α → List α → Except Err (List α)
  | [], acc => .ok acc
  | g :: gs, acc =>
    if p g then
      match pyRemove acc g with
      | .error e => .error e
      | .ok acc' => removeLoopGo p gs acc'
    else
      removeLoopGo p gs acc

/-- Run the removal loop over a copy of `l` against `l` itself. -/
def removeLoop {α : Type} [DecidableEq α] (p : α → Bool) (l : List α) :
    Except Err (List α) :=
  removeLoopGo p l l

/-- The current-PhD and graduated-PhD buckets of `CVBuilder.latex`
(source 99-118): both start from the same advisee filter call, tagged
`"phd"` with lower bound `begin_period`; the graduated bucket then drops
the active entries and the current bucket drops the inactive ones. -/
def cvAdviseeBuckets (filterEmploymentForAdvisees : Nat → String → List Advisee) :
    Except Err (List Advisee) × Except Err (List Advisee) :=
  let currents := filterEmploymentForAdvisees begin_period "phd"
  let graduateds := filterEmploymentForAdvisees begin_period "phd"
  let graduateds' := removeLoop (fun g => g.active) graduateds
  let currents' := removeLoop (fun g => !g.active) currents
  (currents', graduateds')

/-- Inserting into a list commutes with filtering on a due-date class:
the inserted element lands in front of nothing of its own class that was
already present. -/
theorem filter_due_orderedInsert (c : Nat) (a : MRec) (l : List MRec) :
    (List.orderedInsert dueLe a l).filter (fun m => m.due_date == c) =
      if a.due_date == c then a :: l.filter (fun m => m.due_date == c)
      else l.filter (fun m => m.due_date == c) := by
  induction l with
  | nil =>
    by_cases h : a.due_date = c
    all_goals simp [List.orderedInsert, h]
  | cons b l ih =>
    by_cases hab : dueLe a b
    · rw [List.orderedInsert_of_le _ _ hab, List.filter_cons, List.filter_cons]
    · rw [List.orderedInsert, if_neg hab, List.filter_cons, List.filter_cons, ih]
      have hba : b.due_date < a.due_date := Nat.lt_of_not_le hab
      by_cases hac : a.due_date = c
      · have hbc : ¬ b.due_date = c := by omega
        simp [hac, hbc]
      · by_cases hbc : b.due_date = c
        all_goals simp [hac, hbc]

/-- Stability of the merged-view sort: each due-date class keeps its
original relative order. -/
theorem filter_due_insertionSort (c : Nat) (l : List MRec) :
    (List.insertionSort dueLe l).filter (fun m => m.due_date == c) =
      l.filter (fun m => m.due_date == c) := by
  induction l with
  | nil => rfl
  | cons a l ih =>
    rw [List.insertionSort, filter_due_orderedInsert, ih, List.filter_cons]

/-- C1.  For every projectum the merged view built by `db_updater` is the
list `[deliverable, kickoff, *milestones]` sorted non-decreasingly by
resolved due date with a stable sort (each due-date class keeps its input
order), it has length `len(milestones) + 2`, and the display index list
`range(2, len + 2)` assigns consecutive indices starting at 2 (index 1
being reserved for creating a new milestone). -/
theorem c1_merged_view_sorted_stable (p : Projectum) :
    (mergedView p).length = p.milestones.length + 2
    ∧ List.Sorted dueLe (mergedView p)
    ∧ (mergedView p).Perm (preMerge p)
    ∧ (∀ c : Nat, (mergedView p).filter (fun m => m.due_date == c) =
        (preMerge p).filter (fun m => m.due_date == c))
    ∧ (List.range' 2 (mergedView p).length).length = (mergedView p).length
    ∧ (∀ i, i < (mergedView p).length →
        (List.range' 2 (mergedView p).length)[i]? = some (2 + i)) := by
  have hlen : (mergedView p).length = p.milestones.length + 2 := by
    rw [mergedView, List.length_insertionSort]
    simp [preMerge, taggedMilestones]
  refine ⟨hlen, List.sorted_insertionSort dueLe (preMerge p),
    List.perm_insertionSort dueLe (preMerge p),
    fun c => filter_due_insertionSort c (preMerge p),
    by simp, fun i hi => ?_⟩
  rw [List.getElem?_range' 2 1 hi]
  simp

/-- The milestone `m1` of the spec's worked example: due 2024-02-01,
status started, type meeting. -/
def exM1 : MRec :=
  { name := some "m1", objective := some "o1", due_date := 20240201,
    status := some "started", mtype := some "meeting" }

/-- The worked example projectum: deliverable due 2024-03-01, kickoff due
2024-01-01, one milestone `m1` due 2024-02-01. -/
def exPrum : Projectum :=
  { deliverable := { objective := some "d", due_date := 20240301,
                     status := some "proposed", audience := some ["beginning_collaborators"] },
    kickoff := { name := some "Kick off meeting", objective := some "k",
                 due_date := 20240101, status := some "finished" },
    milestones := [exM1] }

/-- A store holding the worked example under id `pr1`. -/
def exStore : Store := [("pr1", exPrum)]

/-- The finish invocation of the worked example: index 3, finish flag,
test date 2024-05-10. -/
def rcFinish : Rc :=
  { projectum_id := "pr1", index := some ['3'], finish := true, date := some 20240510 }

/-- A valid new-milestone invocation: index 1 with due date, name and
objective supplied. -/
def rcNew : Rc :=
  { projectum_id := "pr1", index := some ['1'], due_date := some 20240601,
    name := some "m2", objective := some "o2" }

/-- C2.  The worked finish example: the in-memory edit does set `m1` to
finished and stamps its end date with the test date, but `db_updater`
then raises `TypeError` at `pdoc[identifier].pop('identifier', None)`
(the `milestones` value of `pdoc` is a list), so `update_one` is never
called and nothing is persisted. -/
theorem c2_finish_raises_before_persist :
    db_updater rcFinish 20250101 exStore = ⟨exStore, [], some .typeError⟩
    ∧ editEntry rcFinish 20240510 none (tagResolve "milestones" exM1) "milestones" =
      .ok ({ exM1 with identifier := some "milestones", status := some "finished",
                       end_date := some 20240510 }, some "f") :=
  ⟨by decide, by rfl⟩

/-- C3.  A valid index-1 (new milestone) invocation raises `NameError`:
source line 271 reads the loop local `identifier`, which the `idx == 1`
branch never binds.  No `update_one` is issued, the store is unchanged,
and a second identical invocation on the resulting store fails the same
way, so no milestone is ever appended to the persisted list. -/
theorem c3_new_milestone_raises_nameerror :
    db_updater rcNew 20250101 exStore = ⟨exStore, [], some .nameError⟩
    ∧ db_updater rcNew 20250101 (db_updater rcNew 20250101 exStore).store =
      ⟨exStore, [], some .nameError⟩ :=
  ⟨by decide, by decide⟩

/-- A new-milestone invocation supplying `--type r` and no `--status`. -/
def rcTypeOnly : Rc :=
  { projectum_id := "pr1", index := some ['1'], due_date := some 20240601,
    name := some "m2", objective := some "o2", mtype := some "r" }

/-- A new-milestone invocation supplying `--status s` and no `--type`. -/
def rcStatusOnly : Rc :=
  { projectum_id := "pr1", index := some ['1'], due_date := some 20240601,
    name := some "m2", objective := some "o2", status := some "s" }

/-- C4.  The new-milestone default branches are swapped (source lines
202-215): with `--type r` supplied and `--status` omitted the created
entry's type is overwritten by the default `meeting` (losing `release`)
and no status is set at all; with `--status s` supplied and `--type`
omitted the entry gets no type and a spurious `proposed` is first set and
then overwritten by the supplied status.  Only when both or neither are
supplied does the outcome match the documented defaults. -/
theorem c4_new_milestone_defaults_swapped :
    (buildNewMilestone rcTypeOnly 20240601 "m2" "o2").mtype = some "meeting"
    ∧ (buildNewMilestone rcTypeOnly 20240601 "m2" "o2").status = none
    ∧ (buildNewMilestone rcStatusOnly 20240601 "m2" "o2").mtype = none
    ∧ (buildNewMilestone rcStatusOnly 20240601 "m2" "o2").status = some "started"
    ∧ (buildNewMilestone rcNew 20240601 "m2" "o2").status = some "proposed"
    ∧ (buildNewMilestone rcNew 20240601 "m2" "o2").mtype = some "meeting"
    ∧ (buildNewMilestone rcNew 20240601 "m2" "o2").audience =
      some ["lead", "pi", "group_members"] :=
  ⟨by decide, by decide, by decide, by decide, by decide, by decide, by decide⟩

/-- C5.  When no index is supplied `db_updater` takes the listing path:
it returns without raising, issues no `update_one` call, and leaves the
store unchanged (the listing prints and its in-memory tag deletions are
not persisted). -/
theorem c5_listing_is_read_only (rc : Rc) (today : Nat) (store : Store)
    (p : Projectum) (hfind : List.lookup rc.projectum_id store = some p)
    (hidx : rc.index = none) :
    db_updater rc today store = ⟨store, [], none⟩ := by
  simp [db_updater, foundPath, hfind, hidx]

/-- Witness for C5 at the worked example. -/
theorem c5_listing_is_read_only_witness :
    List.lookup "pr1" exStore = some exPrum
    ∧ db_updater { projectum_id := "pr1" } 20250101 exStore = ⟨exStore, [], none⟩ :=
  ⟨by decide,
   c5_listing_is_read_only { projectum_id := "pr1" } 20250101 exStore exPrum (by decide) rfl⟩

/-- C7.  When the identifier matches no stored record, `db_updater` runs
the fragment lookup: with at least one candidate it prints them and
returns with no mutation and no error; with none it raises the
invalid-identifier `RuntimeError`.  `update_one` is never reached on this
path. -/
theorem c7_unknown_id_fragment_fallback (rc : Rc) (today : Nat) (store : Store)
    (hmiss : List.lookup rc.projectum_id store = none) :
    (fragment_retrieval store rc.projectum_id ≠ [] →
      db_updater rc today store = ⟨store, [], none⟩)
    ∧ (fragment_retrieval store rc.projectum_id = [] →
      db_updater rc today store = ⟨store, [], some .unknownId⟩) := by
  constructor
  · intro h
    simp [db_updater, hmiss, List.length_eq_zero, h]
  · intro h
    simp [db_updater, hmiss, List.length_eq_zero, h]

/-- Witness for C7: an id matching nothing, with and without fragment
candidates. -/
theorem c7_unknown_id_fragment_fallback_witness :
    (List.lookup "zz" exStore = none
      ∧ db_updater { projectum_id := "zz" } 0 exStore = ⟨exStore, [], some .unknownId⟩)
    ∧ (List.lookup "r1" exStore = none
      ∧ db_updater { projectum_id := "r1" } 0 exStore = ⟨exStore, [], none⟩) :=
  ⟨⟨by decide,
    (c7_unknown_id_fragment_fallback { projectum_id := "zz" } 0 exStore (by decide)).2
      (by decide)⟩,
   ⟨by decide,
    (c7_unknown_id_fragment_fallback { projectum_id := "r1" } 0 exStore (by decide)).1
      (by decide)⟩⟩

/-- The type overwrite leaves the notes key untouched. -/
theorem notes_updType (rc : Rc) (d : MRec) : (updType rc d).notes = d.notes := by
  unfold updType
  cases rc.mtype <;> rfl

/-- The status overwrite leaves the notes key untouched. -/
theorem notes_updStatus (s : Option String) (d : MRec) :
    (updStatus s d).notes = d.notes := by
  unfold updStatus
  cases s <;> rfl

/-- The audience overwrite leaves the notes key untouched. -/
theorem notes_updAudience (rc : Rc) (d : MRec) : (updAudience rc d).notes = d.notes := by
  unfold updAudience
  cases rc.audience <;> rfl

/-- The due-date overwrite and re-resolution leave the notes key
untouched. -/
theorem notes_updDue (rc : Rc) (d : MRec) : (updDue rc d).notes = d.notes := by
  unfold updDue
  cases rc.due_date <;> rfl

/-- The name/objective overwrites leave the notes key untouched. -/
theorem notes_updNameObj (rc : Rc) (idf : String) (d : MRec) :
    (updNameObj rc idf d).notes = d.notes := by
  unfold updNameObj
  by_cases h : idf = "milestones"
  · simp only [if_pos h]
    cases rc.name <;> cases rc.objective <;> rfl
  · simp only [if_neg h]

/-- C8.  Whenever an edit of an existing entry (index > 1) succeeds and
notes were supplied, the entry's notes afterwards are exactly its prior
notes (defaulting to the empty list) with the supplied notes appended in
order; no prior note is removed or replaced. -/
theorem c8_notes_are_appended (rc : Rc) (now : Nat) (s0 : Option String)
    (doc : MRec) (idf : String) (ns : List String) (doc' : MRec)
    (s1 : Option String) (hns : rc.notes = some ns)
    (hok : editEntry rc now s0 doc idf = .ok (doc', s1)) :
    doc'.notes = some (doc.notes.getD [] ++ ns) := by
  unfold editEntry at hok
  by_cases hc1 : doc.mtype = none ∧ rc.mtype = none ∧ idf = "milestones"
  · rw [if_pos hc1] at hok
    exact absurd hok (by simp)
  · rw [if_neg hc1] at hok
    by_cases hc2 : rc.finish = true ∧ idf ≠ "deliverable" ∧ (updType rc doc).name = none
    · rw [if_pos hc2] at hok
      exact absurd hok (by simp)
    · rw [if_neg hc2] at hok
      simp only [Except.ok.injEq, Prod.mk.injEq] at hok
      obtain ⟨h1, _⟩ := hok
      rw [← h1, notes_updNameObj]
      unfold updNotes
      rw [hns]
      simp only [notes_updDue, notes_updAudience, notes_updStatus]
      cases hf : rc.finish
      · rw [if_neg (by simp [hf]), notes_updType]
      · rw [if_pos (by simp [hf]),
          show ({ updType rc doc with end_date := some now } : MRec).notes =
            (updType rc doc).notes from rfl, notes_updType]

/-- Witness record for C8: a kickoff-origin entry with prior notes. -/
def docNotes : MRec :=
  { name := some "Kick off meeting", due_date := 20240101,
    notes := some ["a", "b"] }

/-- Witness invocation for C8: notes `[c]` supplied. -/
def rcNotes : Rc := { projectum_id := "pr1", index := some ['2'], notes := some ["c"] }

/-- Witness for C8: `[a, b]` plus supplied `[c]` yields `[a, b, c]`. -/
theorem c8_notes_are_appended_witness :
    (editEntry rcNotes 0 none docNotes "kickoff" =
      .ok ({ docNotes with notes := some ["a", "b", "c"] }, none))
    ∧ ({ docNotes with notes := some ["a", "b", "c"] } : MRec).notes =
      some (docNotes.notes.getD [] ++ ["c"]) :=
  ⟨by rfl,
   c8_notes_are_appended rcNotes 0 none docNotes "kickoff" ["c"]
     { docNotes with notes := some ["a", "b", "c"] } none rfl (by rfl)⟩

/-- The only error `int()` conversion raises is `ValueError`. -/
theorem pyInt_err (s : List Char) (e : Err) (h : pyInt s = .error e) :
    e = .valueError := by
  unfold pyInt at h
  split at h
  · exact absurd h (by simp)
  · injection h with h'
    exact h'.symm

/-- The comma-split integer list conversion raises only `ValueError`. -/
theorem pyIntList_err (l : List (List Char)) (e : Err)
    (h : pyIntList l = .error e) : e = .valueError := by
  induction l with
  | nil => exact absurd h (by simp [pyIntList])
  | cons s rest ih =>
    unfold pyIntList at h
    split at h
    next heq =>
      injection h with h'
      subst h'
      exact pyInt_err s _ heq
    next heq =>
      split at h
      next heq2 =>
        injection h with h'
        subst h'
        exact ih heq2
      next => exact absurd h (by simp)

/-- Index parsing raises only `ValueError`. -/
theorem parseIndexArg_err (s : List Char) (e : Err)
    (h : parseIndexArg s = .error e) : e = .valueError := by
  unfold parseIndexArg at h
  split at h
  · split at h
    next heq =>
      injection h with h'
      subst h'
      exact pyInt_err _ _ heq
    next heq =>
      split at h
      next heq2 =>
        injection h with h'
        subst h'
        exact pyInt_err _ _ heq2
      next => exact absurd h (by simp)
  · split at h
    · exact pyIntList_err _ _ h
    · split at h
      next heq =>
        injection h with h'
        subst h'
        exact pyInt_err _ _ heq
      next => exact absurd h (by simp)

/-- The per-entry field edit raises only the mandatory-type error or the
finish-branch `KeyError`. -/
theorem editEntry_err (rc : Rc) (now : Nat) (s0 : Option String) (doc : MRec)
    (idf : String) (e : Err) (h : editEntry rc now s0 doc idf = .error e) :
    e = .missingType ALLOWED_TYPES ∨ e = .keyError := by
  unfold editEntry at h
  split at h
  · injection h with h'
    exact Or.inl h'.symm
  · split at h
    · injection h with h'
      exact Or.inr h'.symm
    · exact absurd h (by simp)

/-- The `new_mil` comprehension raises only `KeyError`. -/
theorem buildNewMil_err (idx : Nat) (l : List (Nat × MRec)) (e : Err)
    (h : buildNewMil idx l = .error e) : e = .keyError := by
  induction l with
  | nil => exact absurd h (by simp [buildNewMil])
  | cons a rest ih =>
    obtain ⟨i, j⟩ := a
    unfold buildNewMil at h
    split at h
    · injection h with h'
      exact h'.symm
    · split at h
      next heq =>
        injection h with h'
        subst h'
        exact ih heq
      next =>
        split at h
        · exact absurd h (by simp)
        · exact absurd h (by simp)

/-- Errors raised inside the edit loop are never the type/status
validation errors: those are checked once, before the loop. -/
theorem stepIdx_err (rc : Rc) (now : Nat) (il : List Nat) (st : LoopState)
    (idx : Nat) (e : Err) (h : stepIdx rc now il st idx = .error e) :
    e = .missingNewFields ∨ e = .nameError ∨ e = .typeError ∨ e = .keyError
    ∨ e = .indexError ∨ e = .missingType ALLOWED_TYPES := by
  unfold stepIdx at h
  split at h
  · split at h
    · split at h
      · injection h with h'
        subst h'
        tauto
      · split at h
        · injection h with h'
          subst h'
          tauto
        · injection h with h'
          subst h'
          tauto
    · injection h with h'
      subst h'
      tauto
  · split at h
    · split at h
      · injection h with h'
        subst h'
        tauto
      · split at h
        · injection h with h'
          subst h'
          tauto
        · split at h
          next heq =>
            injection h with h'
            subst h'
            rcases editEntry_err _ _ _ _ _ _ heq with h2 | h2 <;> tauto
          next =>
            split at h
            · split at h
              next heq2 =>
                injection h with h'
                subst h'
                have := buildNewMil_err _ _ _ heq2
                tauto
              next =>
                injection h with h'
                subst h'
                tauto
            · exact absurd h (by simp)
    · split at h
      · injection h with h'
        subst h'
        tauto
      · injection h with h'
        subst h'
        tauto

/-- Errors raised by the whole edit loop are never the validation
errors. -/
theorem runLoop_err (rc : Rc) (now : Nat) (il : List Nat) (idxs : List Nat)
    (st st' : LoopState) (e : Err)
    (h : runLoop rc now il idxs st = (st', some e)) :
    e = .missingNewFields ∨ e = .nameError ∨ e = .typeError ∨ e = .keyError
    ∨ e = .indexError ∨ e = .missingType ALLOWED_TYPES := by
  induction idxs generalizing st with
  | nil => simp [runLoop] at h
  | cons i rest ih =>
    unfold runLoop at h
    split at h
    next heq =>
      simp only [Prod.mk.injEq, Option.some.injEq] at h
      obtain ⟨-, h2⟩ := h
      subst h2
      exact stepIdx_err _ _ _ _ _ _ heq
    next st2 heq =>
      exact ih st2 h

/-- C6.  With an index supplied, a supplied `--type` or `--status` value
outside its allowed set (short codes and full names) makes `db_updater`
fail with the fatal error naming that allowed set, before any edit is
applied (no `update_one`, store unchanged); values inside the set never
trigger these validation errors. -/
theorem c6_type_status_validation (rc : Rc) (today : Nat) (store : Store)
    (p : Projectum) (s : List Char)
    (hfind : List.lookup rc.projectum_id store = some p)
    (hidx : rc.index = some s) :
    (∀ t, rc.mtype = some t → t ∉ flatPairs ALLOWED_TYPES →
      db_updater rc today store = ⟨store, [], some (.invalidType ALLOWED_TYPES)⟩)
    ∧ (∀ u, rc.status = some u → u ∉ flatPairs ALLOWED_STATI →
      (∀ t, rc.mtype = some t → t ∈ flatPairs ALLOWED_TYPES) →
      db_updater rc today store = ⟨store, [], some (.invalidStatus ALLOWED_STATI)⟩)
    ∧ ((∀ t, rc.mtype = some t → t ∈ flatPairs ALLOWED_TYPES) →
      (∀ u, rc.status = some u → u ∈ flatPairs ALLOWED_STATI) →
      ∀ al, (db_updater rc today store).err ≠ some (.invalidType al)
        ∧ (db_updater rc today store).err ≠ some (.invalidStatus al)) := by
  refine ⟨?_, ?_, ?_⟩
  · intro t ht hmem
    have hct : checkType rc = some (.invalidType ALLOWED_TYPES) := by
      simp [checkType, ht, hmem]
    simp [db_updater, hfind, foundPath, hidx, hct]
  · intro u hu hmem htonly
    have hct : checkType rc = none := by
      cases h : rc.mtype with
      | none => simp [checkType, h]
      | some t => simp [checkType, h, htonly t h]
    have hcs : checkStatus rc = some (.invalidStatus ALLOWED_STATI) := by
      simp [checkStatus, hu, hmem]
    simp [db_updater, hfind, foundPath, hidx, hct, hcs]
  · intro htype hstatus al
    have hct : checkType rc = none := by
      cases h : rc.mtype with
      | none => simp [checkType, h]
      | some t => simp [checkType, h, htype t h]
    have hcs : checkStatus rc = none := by
      cases h : rc.status with
      | none => simp [checkStatus, h]
      | some u => simp [checkStatus, h, hstatus u h]
    cases hp : parseIndexArg (s.filter (fun c => !(c = ' '))) with
    | error e =>
      have he := parseIndexArg_err _ _ hp
      subst he
      constructor
      all_goals simp [db_updater, hfind, foundPath, hidx, hct, hcs, hp]
    | ok idxs =>
      have hres : (db_updater rc today store).err =
          (runLoop rc (rc.date.getD today)
            (List.range' 2 (mergedView p).length) idxs
            ⟨mergedView p, taggedMilestones p, rc.status, none, store, []⟩).2 := by
        simp [db_updater, hfind, foundPath, hidx, hct, hcs, hp]
      cases he : (runLoop rc (rc.date.getD today)
          (List.range' 2 (mergedView p).length) idxs
          ⟨mergedView p, taggedMilestones p, rc.status, none, store, []⟩).2 with
      | none => simp [hres, he]
      | some e =>
        have hfull : runLoop rc (rc.date.getD today)
            (List.range' 2 (mergedView p).length) idxs
            ⟨mergedView p, taggedMilestones p, rc.status, none, store, []⟩ =
            ((runLoop rc (rc.date.getD today)
              (List.range' 2 (mergedView p).length) idxs
              ⟨mergedView p, taggedMilestones p, rc.status, none, store, []⟩).1,
             some e) := by
          rw [← he]
        rcases runLoop_err _ _ _ _ _ _ _ hfull with h2 | h2 | h2 | h2 | h2 | h2
        all_goals subst h2
        all_goals simp [hres, he]

/-- An edit invocation supplying an invalid `--type`. -/
def rcBadType : Rc := { projectum_id := "pr1", index := some ['2'], mtype := some "x" }

/-- An edit invocation supplying an invalid `--status`. -/
def rcBadStatus : Rc := { projectum_id := "pr1", index := some ['2'], status := some "y" }

/-- Witness for C6 at concrete invalid type and status values. -/
theorem c6_type_status_validation_witness :
    db_updater rcBadType 0 exStore = ⟨exStore, [], some (.invalidType ALLOWED_TYPES)⟩
    ∧ db_updater rcBadStatus 0 exStore =
      ⟨exStore, [], some (.invalidStatus ALLOWED_STATI)⟩ :=
  ⟨(c6_type_status_validation rcBadType 0 exStore exPrum ['2'] (by decide) rfl).1
      "x" rfl (by decide),
   (c6_type_status_validation rcBadStatus 0 exStore exPrum ['2'] (by decide) rfl).2.1
      "y" rfl (by decide) (by intro t ht; simp [rcBadStatus] at ht)⟩

/-- A split always yields at least one piece. -/
theorem splitOnChar_ne_nil (sep : Char) (s : List Char) :
    splitOnChar sep s ≠ [] := by
  cases s with
  | nil => simp [splitOnChar]
  | cons c rest =>
    simp only [splitOnChar]
    split
    · simp
    · split
      all_goals simp

/-- A split with a single piece means the separator was absent and the
piece is the whole input. -/
theorem splitOnChar_single (sep : Char) (s x : List Char)
    (h : splitOnChar sep s = [x]) : s = x := by
  induction s generalizing x with
  | nil =>
    simp only [splitOnChar, List.cons.injEq, and_true] at h
    exact h
  | cons c rest ih =>
    cases hs : splitOnChar sep rest with
    | nil => exact absurd hs (splitOnChar_ne_nil sep rest)
    | cons hd tl =>
      simp only [splitOnChar, hs] at h
      by_cases hc : c = sep
      · rw [if_pos hc] at h
        simp at h
      · rw [if_neg hc] at h
        simp only [List.cons.injEq] at h
        obtain ⟨h1, h2⟩ := h
        have := ih hd (by rw [hs, h2])
        rw [← h1, this]

/-- A split with exactly two pieces recovers the input as
`first ++ sep :: second`. -/
theorem splitOnChar_pair (sep : Char) (s : List Char) :
    ∀ x y, splitOnChar sep s = [x, y] → s = x ++ sep :: y := by
  induction s with
  | nil =>
    intro x y h
    simp [splitOnChar] at h
  | cons c rest ih =>
    intro x y h
    cases hs : splitOnChar sep rest with
    | nil => exact absurd hs (splitOnChar_ne_nil sep rest)
    | cons hd tl =>
      simp only [splitOnChar, hs] at h
      by_cases hc : c = sep
      · rw [if_pos hc] at h
        simp only [List.cons.injEq] at h
        obtain ⟨h1, h2, h3⟩ := h
        have hrest : rest = y := splitOnChar_single sep rest y (by rw [hs, h2, h3])
        rw [← h1, hc, hrest]
        rfl
      · rw [if_neg hc] at h
        simp only [List.cons.injEq] at h
        obtain ⟨h1, h2⟩ := h
        have hrest : rest = hd ++ sep :: y := ih hd y (by rw [hs, h2])
        rw [← h1, hrest]
        rfl

/-- Stripping the sign keeps a comma. -/
theorem stripPlus_comma (t : List Char) (h : ',' ∈ t) : ',' ∈ stripPlus t := by
  unfold stripPlus
  split
  · next rest =>
      simp only [List.mem_cons] at h
      exact h.resolve_left (by decide)
  · exact h

/-- A piece containing a comma never converts to an integer. -/
theorem pyInt_comma (t : List Char) (hc : ',' ∈ t) :
    pyInt t = .error .valueError := by
  unfold pyInt
  rw [if_neg]
  intro hcon
  obtain ⟨-, hall⟩ := hcon
  have h1 := stripPlus_comma t hc
  have h2 := List.all_eq_true.mp hall ',' h1
  exact absurd h2 (by decide)

/-- C10.  Any index argument containing a dash is parsed by the range
branch: the first two dash-separated pieces are converted and yield the
inclusive range between them, so the branch takes precedence over comma
splitting; a string mixing list and range syntax (one dash, hence exactly
two pieces, and a comma) always fails the integer conversion with
`ValueError`, as the concrete mixed input `2,4-6` does. -/
theorem c10_dash_range_precedence :
    (∀ s : List Char, '-' ∈ s →
      ∀ a b, pyInt ((splitOnChar '-' s).getD 0 []) = .ok a →
        pyInt ((splitOnChar '-' s).getD 1 []) = .ok b →
        ∃ l, parseIndexArg s = .ok l ∧ ∀ i, i ∈ l ↔ a ≤ i ∧ i ≤ b)
    ∧ (∀ s : List Char, '-' ∈ s → ',' ∈ s →
      (splitOnChar '-' s).length = 2 → parseIndexArg s = .error .valueError)
    ∧ parseIndexArg "2,4-6".data = .error .valueError := by
  refine ⟨?_, ?_, by rfl⟩
  · intro s hd a b ha hb
    refine ⟨List.range' a (b + 1 - a), ?_, ?_⟩
    · simp only [List.getD, List.get?_eq_getElem?] at ha hb
      simp [parseIndexArg, hd, ha, hb]
    · intro i
      rw [List.mem_range'_1]
      omega
  · intro s hd hc hlen
    match hs : splitOnChar '-' s with
    | [] => exact absurd hs (splitOnChar_ne_nil '-' s)
    | [x] => rw [hs] at hlen; simp at hlen
    | x :: y :: z :: t => rw [hs] at hlen; simp at hlen
    | [x, y] =>
      have hsplit : s = x ++ '-' :: y := splitOnChar_pair '-' s x y hs
      have hxy : ',' ∈ x ∨ ',' ∈ y := by
        rw [hsplit] at hc
        simp only [List.mem_append, List.mem_cons] at hc
        rcases hc with h | h | h
        · exact Or.inl h
        · exact absurd h (by decide)
        · exact Or.inr h
      rcases hxy with hx | hy
      · simp [parseIndexArg, hd, hs, pyInt_comma x hx]
      · cases hpx : pyInt x with
        | error e =>
          have := pyInt_err x e hpx
          subst this
          simp [parseIndexArg, hd, hs, hpx]
        | ok a =>
          simp [parseIndexArg, hd, hs, hpx, pyInt_comma y hy]

/-- Witness for C10: a range-then-comma mix also fails. -/
theorem c10_dash_range_precedence_witness :
    parseIndexArg "4-6,2".data = .error .valueError :=
  c10_dash_range_precedence.2.1 "4-6,2".data (by decide) (by decide) (by decide)

/-- Invariant for the removal loop: with an already-kept prefix of
non-matching entries followed by the unprocessed suffix, removing each
matching entry of the suffix removes exactly that occurrence (equal
entries agree on the predicate, so no kept entry can be hit first), and
the loop returns the kept prefix plus the non-matching suffix entries. -/
theorem removeLoopGo_filter {α : Type} [DecidableEq α] (p : α → Bool)
    (gs : List α) : ∀ kept : List α, (∀ x ∈ kept, p x = false) →
    removeLoopGo p gs (kept ++ gs) = .ok (kept ++ gs.filter (fun x => !p x)) := by
  induction gs with
  | nil =>
    intro kept _
    simp [removeLoopGo]
  | cons g gs ih =>
    intro kept hk
    by_cases hg : p g = true
    · have hne : g ∉ kept := by
        intro hmem
        rw [hk g hmem] at hg
        exact Bool.false_ne_true hg
      have hmem : g ∈ kept ++ g :: gs := List.mem_append_right kept (List.mem_cons_self g gs)
      have herase : (kept ++ g :: gs).erase g = kept ++ gs := by
        rw [List.erase_append_right _ hne, List.erase_cons_head]
      rw [removeLoopGo, if_pos hg]
      unfold pyRemove
      rw [if_pos hmem, herase]
      show removeLoopGo p gs (kept ++ gs) =
        Except.ok (kept ++ List.filter (fun x => !p x) (g :: gs))
      rw [ih kept hk]
      simp [List.filter_cons, hg]
    · rw [removeLoopGo, if_neg hg]
      have h2 := ih (kept ++ [g]) (by
        intro x hx
        rcases List.mem_append.mp hx with h | h
        · exact hk x h
        · rw [List.mem_singleton.mp h]
          exact Bool.not_eq_true _ |>.mp hg)
      rw [List.append_assoc, List.singleton_append] at h2
      rw [h2]
      simp [Bool.not_eq_true _ |>.mp hg]

/-- C9.  The current-PhD and graduated-PhD buckets of `CVBuilder.latex`
are both drawn from the same phd-tagged advisee filter with the fixed
lower bound 1650-01-01, and are split exactly by the activity flag: the
graduated bucket is the inactive part and the current bucket the active
part, in original order. -/
theorem c9_phd_buckets_split_by_activity (f : Nat → String → List Advisee) :
    (cvAdviseeBuckets f).1 = .ok ((f begin_period "phd").filter (fun g => g.active))
    ∧ (cvAdviseeBuckets f).2 = .ok ((f begin_period "phd").filter (fun g => !g.active)) := by
  have h1 := removeLoopGo_filter (fun g : Advisee => !g.active)
    (f begin_period "phd") [] (by simp)
  have h2 := removeLoopGo_filter (fun g : Advisee => g.active)
    (f begin_period "phd") [] (by simp)
  rw [List.nil_append] at h1 h2
  constructor
  · rw [show (cvAdviseeBuckets f).1 =
      removeLoop (fun g => !g.active) (f begin_period "phd") from rfl]
    rw [removeLoop, h1]
    simp
  · rw [show (cvAdviseeBuckets f).2 =
      removeLoop (fun g => g.active) (f begin_period "phd") from rfl]
    rw [removeLoop, h2]
    simp
